import Mathlib

/- Verification of the Etch-a-Sketch PyBadge control logic.

   The definitions below are shallow embeddings of the repository sources:
   `src/audio.py` (class Audio), `src/input.py` (classes Button /
   ButtonPress), the shake-detection portion of `main_loop` in `src/code.py`,
   and the drawing step of `Draw.draw_and_move_cursor` in `src/draw.py`.

   Modelling conventions: times and durations (Python floats from
   `time.monotonic()`) are rationals; frequencies are integers; the
   `audioio.AudioOut` device is a single boolean `device_on` (set by
   `audio.play`, cleared by `audio.stop`); Python `print` output is collected
   in a list of strings; a raised exception is `Option.none`. -/

/-- Playback state of the `Audio` class (src/audio.py lines 10-14):
`playing`, `prev_time`, `prev_note_len_s` and `note_queue` are the instance
fields; `device_on` models whether the `audioio.AudioOut` output device is
currently playing a waveform. -/
structure AudioState where
  playing : Bool
  prev_time : ℚ
  prev_note_len_s : ℚ
  note_queue : List (ℤ × ℚ)
  device_on : Bool
deriving DecidableEq, Repr

/-- The state of a fresh `Audio` object before any note request. -/
def initAudioState : AudioState := ⟨false, 0, 0, [], false⟩

/-- `Audio.play_tone` (src/audio.py lines 46-61). `now` models the value of
`time.monotonic()` at the call. A non-positive frequency is normalised to 0
(the `else: freq_hz = 0` branch); if a note is already playing the request is
appended to `note_queue`, otherwise the note starts at once and the output
device is started when the frequency is non-zero. -/
def play_tone (freq_hz : ℤ) (time_s : ℚ) (now : ℚ) (s : AudioState) : AudioState :=
  let f := if 0 < freq_hz then freq_hz else 0
  if s.playing then
    { s with note_queue := s.note_queue ++ [(f, time_s)] }
  else
    { s with device_on := if f ≠ 0 then true else s.device_on,
             prev_time := now, prev_note_len_s := time_s, playing := true }

/-- `Audio.stop` (src/audio.py lines 83-85). -/
def stopAudio (s : AudioState) : AudioState :=
  { s with device_on := false, playing := false }

/-- `Audio.tick` (src/audio.py lines 87-94): stop the current note when its
requested duration has elapsed, then, if idle and the queue is non-empty,
pop the oldest entry and start it through `play_tone`. -/
def tick (now : ℚ) (s : AudioState) : AudioState :=
  let s1 := if s.playing ∧ s.prev_note_len_s ≤ now - s.prev_time then stopAudio s else s
  if s1.playing then s1
  else
    match s1.note_queue with
    | [] => s1
    | n :: rest => play_tone n.1 n.2 now { s1 with note_queue := rest }

/-- A burst of `play_tone` requests, all issued at time `now`, in list order. -/
def playTones (rs : List (ℤ × ℚ)) (now : ℚ) (s : AudioState) : AudioState :=
  rs.foldl (fun st r => play_tone r.1 r.2 now st) s

/-- Claim C1: for every frequency f > 0 and duration d, `play_tone f d` in the
idle state (`playing = false` with an empty pending queue) transitions
immediately to playing with requested duration d; a subsequent `tick` at any
time strictly earlier than `now + d` leaves it playing, and a `tick` at
`now + d` or later stops the output device and sets `playing` to false. -/
theorem play_tone_start_and_expiry (f : ℤ) (d now : ℚ) (s : AudioState)
    (hf : 0 < f) (hp : s.playing = false) (hq : s.note_queue = []) :
    (play_tone f d now s).playing = true ∧
    (play_tone f d now s).prev_note_len_s = d ∧
    (play_tone f d now s).prev_time = now ∧
    (∀ t, t < now + d → (tick t (play_tone f d now s)).playing = true) ∧
    (∀ t, now + d ≤ t →
      (tick t (play_tone f d now s)).playing = false ∧
      (tick t (play_tone f d now s)).device_on = false) := by
  have hs : play_tone f d now s =
      { s with device_on := true, prev_time := now, prev_note_len_s := d,
               playing := true } := by
    simp only [play_tone, hp, hf]
    simp
    exact Or.inl (by omega)
  refine ⟨by simp [hs], by simp [hs], by simp [hs], ?_, ?_⟩
  · intro t ht
    have hlt : ¬ (d ≤ t - now) := by intro h; linarith
    simp [hs, tick, hlt]
  · intro t ht
    have hle : d ≤ t - now := by linarith
    simp [hs, tick, hle, stopAudio, hq]

/-- Witness for C1 at f = 440, d = 1, now = 0 from the initial state. -/
theorem play_tone_start_and_expiry_witness :
    (tick 2 (play_tone 440 1 0 initAudioState)).playing = false ∧
    (tick 2 (play_tone 440 1 0 initAudioState)).device_on = false :=
  (play_tone_start_and_expiry 440 1 0 initAudioState (by decide) rfl rfl).2.2.2.2
    2 (by norm_num)

/-- Claim C2: requests issued while a note is playing, including
zero-frequency rest requests, are appended to the pending queue in arrival
order with no reordering and no drops (part 1); a
tick that finds the scheduler not playing with a non-empty queue pops the
oldest entry and starts it within that same tick (part 2), and likewise a
tick that stops an expired note immediately starts the oldest queued entry
in the same tick (part 3); a tick never removes more than the oldest queue
entry (part 4). -/
theorem note_queue_fifo :
    (∀ (rs : List (ℤ × ℚ)) (now : ℚ) (s : AudioState),
       s.playing = true → (∀ r ∈ rs, 0 ≤ r.1) →
       (playTones rs now s).playing = true ∧
       (playTones rs now s).note_queue = s.note_queue ++ rs) ∧
    (∀ (now : ℚ) (s : AudioState) (f : ℤ) (d : ℚ) (rest : List (ℤ × ℚ)),
       s.playing = false → s.note_queue = (f, d) :: rest →
       (tick now s).playing = true ∧ (tick now s).note_queue = rest ∧
       (tick now s).prev_note_len_s = d ∧ (tick now s).prev_time = now) ∧
    (∀ (now : ℚ) (s : AudioState) (f : ℤ) (d : ℚ) (rest : List (ℤ × ℚ)),
       s.playing = true → s.prev_note_len_s ≤ now - s.prev_time →
       s.note_queue = (f, d) :: rest →
       (tick now s).playing = true ∧ (tick now s).note_queue = rest ∧
       (tick now s).prev_note_len_s = d) ∧
    (∀ (now : ℚ) (s : AudioState),
       (tick now s).note_queue = s.note_queue ∨
       (tick now s).note_queue = s.note_queue.tail) := by
  refine ⟨?_, ?_, ?_, ?_⟩
  · intro rs
    induction rs with
    | nil => intro now s hp _; simpa [playTones] using hp
    | cons r rs ih =>
      intro now s hp hpos
      have hnorm : (if 0 < r.1 then r.1 else 0) = r.1 := by
        rcases (hpos r (by simp)).lt_or_eq with h | h
        · rw [if_pos h]
        · rw [if_neg (by omega), ← h]
      have hstep : play_tone r.1 r.2 now s =
          { s with note_queue := s.note_queue ++ [(r.1, r.2)] } := by
        simp only [play_tone, hp]
        simp [hnorm]
      have hrec := ih now { s with note_queue := s.note_queue ++ [(r.1, r.2)] }
        (by simp [hp]) (fun q hq => hpos q (by simp [hq]))
      constructor
      · simpa [playTones, hstep] using hrec.1
      · have := hrec.2
        simpa [playTones, hstep, List.append_assoc] using this
  · intro now s f d rest hp hq
    simp [tick, hp, hq, play_tone]
  · intro now s f d rest hp hd hq
    simp [tick, hp, hd, stopAudio, hq, play_tone]
  · intro now s
    by_cases hp : s.playing = true
    · by_cases hd : s.prev_note_len_s ≤ now - s.prev_time
      · cases hq : s.note_queue with
        | nil => left; simp [tick, hp, hd, stopAudio, hq]
        | cons n rest => right; simp [tick, hp, hd, stopAudio, hq, play_tone]
      · left; simp [tick, hp, hd]
    · have hp2 : s.playing = false := by simpa using hp
      cases hq : s.note_queue with
      | nil => left; simp [tick, hp2, hq]
      | cons n rest => right; simp [tick, hp2, hq, play_tone]

/-- Witness for C2: a tone request and a zero-frequency rest request queued
while playing, in order, then the oldest dequeued and started by the next
idle tick. -/
theorem note_queue_fifo_witness :
    (playTones [(440, 1), (0, 1)] 0 ⟨true, 0, 2, [], true⟩).note_queue =
      [(440, 1), (0, 1)] ∧
    (tick 0 ⟨false, 0, 0, [(440, 1)], false⟩).playing = true ∧
    (tick 0 ⟨false, 0, 0, [(440, 1)], false⟩).note_queue = [] :=
  ⟨by simpa using
      (note_queue_fifo.1 [(440, 1), (0, 1)] 0 ⟨true, 0, 2, [], true⟩ rfl
        (by decide)).2,
   (note_queue_fifo.2.1 0 ⟨false, 0, 0, [(440, 1)], false⟩ 440 1 [] rfl rfl).1,
   (note_queue_fifo.2.1 0 ⟨false, 0, 0, [(440, 1)], false⟩ 440 1 [] rfl rfl).2.1⟩

/-- The chromatic note names used by `Audio._frequency_from_note_and_octave`
(src/audio.py line 30). -/
def allNotes : List String :=
  ["A", "A#", "B", "C", "C#", "D", "D#", "E", "F", "F#", "G", "G#"]

/-- Python `str.upper()` on the note name, character by character. -/
def upperString (s : String) : String :=
  String.mk (s.toList.map Char.toUpper)

/-- The piano-key index computed by `Audio._frequency_from_note_and_octave`
(src/audio.py lines 29-43): look the upper-cased note name up in `allNotes`
(`none` models the ValueError branch), bump the octave for the notes below C,
then `converted_key = note_idx + (octave - 1) * 12 + 1`. -/
def noteKey (note_name : String) (octave : ℤ) : Option ℤ :=
  match allNotes.findIdx? (fun n => n = upperString note_name) with
  | none => none
  | some idx =>
    some ((idx : ℤ) + ((if idx < 3 then octave + 1 else octave) - 1) * 12 + 1)

/-- `int(440 * math.pow(2, (converted_key - 49) / 12))` (src/audio.py line 44).
The value inside `int` is positive, so the truncation is the floor. -/
noncomputable def key_frequency (k : ℤ) : ℤ :=
  ⌊(440 : ℝ) * (2 : ℝ) ^ (((k : ℝ) - 49) / 12)⌋

/-- `Audio._frequency_from_note_and_octave` (src/audio.py lines 29-44); an
unrecognized note name yields 0 (the `except ValueError: return 0` branch). -/
noncomputable def frequency_from_note_and_octave (note_name : String) (octave : ℤ) : ℤ :=
  match noteKey note_name octave with
  | none => 0
  | some k => key_frequency k

lemma noteKey_C5 : noteKey "C" 5 = some 52 := by decide

lemma noteKey_A4 : noteKey "A" 4 = some 49 := by decide

lemma two_rpow_quarter_pow_four : ((2 : ℝ) ^ ((1 : ℝ) / 4)) ^ (4 : ℕ) = 2 := by
  rw [← Real.rpow_natCast ((2 : ℝ) ^ ((1 : ℝ) / 4)) 4,
    ← Real.rpow_mul (by norm_num : (0 : ℝ) ≤ 2)]
  norm_num

lemma two_rpow_quarter_nonneg : (0 : ℝ) ≤ (2 : ℝ) ^ ((1 : ℝ) / 4) :=
  Real.rpow_nonneg (by norm_num) _

lemma floor_440_two_rpow_quarter : ⌊(440 : ℝ) * (2 : ℝ) ^ ((1 : ℝ) / 4)⌋ = 523 := by
  have hy0 : (0 : ℝ) ≤ (2 : ℝ) ^ ((1 : ℝ) / 4) := two_rpow_quarter_nonneg
  have hy4 := two_rpow_quarter_pow_four
  rw [Int.floor_eq_iff]
  constructor
  · have h4 : ((523 : ℝ) / 440) ^ (4 : ℕ) ≤ ((2 : ℝ) ^ ((1 : ℝ) / 4)) ^ (4 : ℕ) := by
      rw [hy4]; norm_num
    have hle := (pow_le_pow_iff_left₀ (by norm_num) hy0 (by norm_num)).mp h4
    rw [div_le_iff₀ (by norm_num : (0 : ℝ) < 440)] at hle
    push_cast
    linarith
  · have h4 : ((2 : ℝ) ^ ((1 : ℝ) / 4)) ^ (4 : ℕ) < ((524 : ℝ) / 440) ^ (4 : ℕ) := by
      rw [hy4]; norm_num
    have hlt := (pow_lt_pow_iff_left₀ hy0 (by norm_num) (by norm_num)).mp h4
    rw [lt_div_iff₀ (by norm_num : (0 : ℝ) < 440)] at hlt
    push_cast
    linarith

lemma floor_440_two_rpow_fifteen_twelfths :
    ⌊(440 : ℝ) * (2 : ℝ) ^ ((15 : ℝ) / 12)⌋ = 1046 := by
  have hy0 : (0 : ℝ) ≤ (2 : ℝ) ^ ((1 : ℝ) / 4) := two_rpow_quarter_nonneg
  have hy4 := two_rpow_quarter_pow_four
  have hsplit : (2 : ℝ) ^ ((15 : ℝ) / 12) = 2 * (2 : ℝ) ^ ((1 : ℝ) / 4) := by
    rw [show (15 : ℝ) / 12 = 1 + 1 / 4 by norm_num,
      Real.rpow_add (by norm_num : (0 : ℝ) < 2), Real.rpow_one]
  rw [hsplit, show (440 : ℝ) * (2 * (2 : ℝ) ^ ((1 : ℝ) / 4)) =
    880 * (2 : ℝ) ^ ((1 : ℝ) / 4) by ring, Int.floor_eq_iff]
  constructor
  · have h4 : ((1046 : ℝ) / 880) ^ (4 : ℕ) ≤ ((2 : ℝ) ^ ((1 : ℝ) / 4)) ^ (4 : ℕ) := by
      rw [hy4]; norm_num
    have hle := (pow_le_pow_iff_left₀ (by norm_num) hy0 (by norm_num)).mp h4
    rw [div_le_iff₀ (by norm_num : (0 : ℝ) < 880)] at hle
    push_cast
    linarith
  · have h4 : ((2 : ℝ) ^ ((1 : ℝ) / 4)) ^ (4 : ℕ) < ((1047 : ℝ) / 880) ^ (4 : ℕ) := by
      rw [hy4]; norm_num
    have hlt := (pow_lt_pow_iff_left₀ hy0 (by norm_num) (by norm_num)).mp h4
    rw [lt_div_iff₀ (by norm_num : (0 : ℝ) < 880)] at hlt
    push_cast
    linarith

lemma frequency_C5_eq : frequency_from_note_and_octave "C" 5 = 523 := by
  have h : frequency_from_note_and_octave "C" 5 = key_frequency 52 := rfl
  rw [h]
  unfold key_frequency
  rw [show (((52 : ℤ) : ℝ) - 49) / 12 = (1 : ℝ) / 4 by norm_num]
  exact floor_440_two_rpow_quarter

/-- Counterexample for claim C4: the code maps note C octave 5 to 523 Hz
(three semitones above A4), not to the claimed frequency one octave and
three semitones above A4, whose truncation is 1046 Hz. -/
theorem frequency_C5_claim_counterexample :
    frequency_from_note_and_octave "C" 5 = 523 ∧
    ⌊(440 : ℝ) * (2 : ℝ) ^ ((15 : ℝ) / 12)⌋ = 1046 ∧ (523 : ℤ) ≠ 1046 :=
  ⟨frequency_C5_eq, floor_440_two_rpow_fifteen_twelfths, by decide⟩

/-- Claim C4 (amended): "A" octave 4 maps to exactly 440 Hz; "C" octave 5
maps to the truncated equal-temperament frequency three semitones above
A4 = 440 Hz, namely 523 Hz; an empty or unrecognized note letter maps to
0 Hz. -/
theorem frequency_mapping_amended :
    frequency_from_note_and_octave "A" 4 = 440 ∧
    frequency_from_note_and_octave "C" 5 = ⌊(440 : ℝ) * (2 : ℝ) ^ ((3 : ℝ) / 12)⌋ ∧
    frequency_from_note_and_octave "C" 5 = 523 ∧
    frequency_from_note_and_octave "" 4 = 0 ∧
    frequency_from_note_and_octave "H" 4 = 0 := by
  refine ⟨?_, ?_, frequency_C5_eq, ?_, ?_⟩
  · have h : frequency_from_note_and_octave "A" 4 = key_frequency 49 := rfl
    rw [h]
    unfold key_frequency
    rw [show (((49 : ℤ) : ℝ) - 49) / 12 = (0 : ℝ) by norm_num,
      Real.rpow_zero, mul_one, show (440 : ℝ) = ((440 : ℤ) : ℝ) by norm_num,
      Int.floor_intCast]
  · rw [frequency_C5_eq, show (3 : ℝ) / 12 = (1 : ℝ) / 4 by norm_num,
      floor_440_two_rpow_quarter]
  · rfl
  · rfl

/-- Python `int(s[-1:])` for a non-empty string: parse the final character as
a decimal digit; `none` models the ValueError raised on a non-digit. -/
def int_of_last_char (s : String) : Option ℤ :=
  match s.toList.getLast? with
  | some c => if c.isDigit then some ((c.toNat : ℤ) - 48) else none
  | none => none

/-- Python `s[:n]`. -/
def strTake (n : ℕ) (s : String) : String :=
  String.mk (s.toList.take n)

/-- `Audio.play_note` (src/audio.py lines 63-81). The result is `none` when
the Python code would raise (the `int()` call on a non-digit final
character); otherwise `some` of the new state and the printed diagnostics.
A string longer than 3 characters is rejected with a printed message; for a
2- or 3-character string the final character is the octave digit and the
leading 1 or 2 characters are the note name; otherwise the whole string is
the note name with the default octave 5. -/
noncomputable def play_note (note_and_octave : String) (time_s now : ℚ)
    (s : AudioState) : Option (AudioState × List String) :=
  if 3 < note_and_octave.length then
    some (s, ["Cannot play note " ++ note_and_octave])
  else if 1 < note_and_octave.length then
    match int_of_last_char note_and_octave with
    | none => none
    | some octave =>
      let note_end_idx : ℕ := if note_and_octave.length = 3 then 2 else 1
      some (play_tone
        (frequency_from_note_and_octave (strTake note_end_idx note_and_octave) octave)
        time_s now s, [])
  else
    some (play_tone (frequency_from_note_and_octave (strTake 1 note_and_octave) 5)
      time_s now s, [])

lemma play_tone_playing (f : ℤ) (d now : ℚ) (st : AudioState) :
    (play_tone f d now st).playing = true := by
  unfold play_tone
  by_cases h : st.playing = true <;> simp [h]

lemma play_tone_queue_of_playing (f : ℤ) (d now : ℚ) (st : AudioState)
    (h : st.playing = true) :
    (play_tone f d now st).note_queue =
      st.note_queue ++ [(if 0 < f then f else 0, d)] := by
  simp [play_tone, h]

/-- Counterexample for claim C5: `play_note` is not exception-free on every
input string: on input "AB" the code reaches `int("B")`, which raises
ValueError (modelled by `none`). -/
theorem play_note_raises_counterexample :
    play_note "AB" 1 0 initAudioState = none := rfl

/-- Claim C5 (amended): `play_note` never raises provided the input string
has length at most 1, length greater than 3, or ends in a decimal digit.
Strings longer than 3 characters are dropped with a logged diagnostic and
the playback state unchanged; all other accepted inputs play or enqueue a
tone. An unrecognized note letter maps to frequency 0, and starting a
frequency-0 tone leaves the output device untouched (silence). -/
theorem play_note_robustness_amended :
    (∀ (nstr : String) (t now : ℚ) (st : AudioState),
       nstr.length ≤ 1 ∨ 3 < nstr.length ∨ (int_of_last_char nstr).isSome = true →
       ∃ st2 log, play_note nstr t now st = some (st2, log) ∧
         (3 < nstr.length → st2 = st ∧ log = ["Cannot play note " ++ nstr]) ∧
         (nstr.length ≤ 3 → st2.playing = true ∧
            (st.playing = true →
              ∃ fr, st2.note_queue = st.note_queue ++ [(fr, t)]))) ∧
    (∀ (name : String) (oct : ℤ), upperString name ∉ allNotes →
       frequency_from_note_and_octave name oct = 0) ∧
    (∀ (t now : ℚ) (st : AudioState), st.playing = false →
       (play_tone 0 t now st).device_on = st.device_on ∧
       (play_tone 0 t now st).playing = true) := by
  refine ⟨?_, ?_, ?_⟩
  · intro nstr t now st h
    by_cases h3 : 3 < nstr.length
    · refine ⟨st, ["Cannot play note " ++ nstr], by simp [play_note, h3], ?_, ?_⟩
      · exact fun _ => ⟨rfl, rfl⟩
      · intro hle; omega
    · have hle3 : nstr.length ≤ 3 := by omega
      by_cases h1 : 1 < nstr.length
      · have hsome : (int_of_last_char nstr).isSome = true := by
          rcases h with h | h | h
          · omega
          · omega
          · exact h
        obtain ⟨oct, hoct⟩ := Option.isSome_iff_exists.mp hsome
        refine ⟨play_tone
            (frequency_from_note_and_octave
              (strTake (if nstr.length = 3 then 2 else 1) nstr) oct) t now st, [],
          by simp [play_note, h3, h1, hoct], by omega, ?_⟩
        intro _
        refine ⟨play_tone_playing _ _ _ _, fun hp => ⟨_, play_tone_queue_of_playing _ _ _ _ hp⟩⟩
      · refine ⟨play_tone (frequency_from_note_and_octave (strTake 1 nstr) 5) t now st, [],
          by simp [play_note, h3, h1], by omega, ?_⟩
        intro _
        refine ⟨play_tone_playing _ _ _ _, fun hp => ⟨_, play_tone_queue_of_playing _ _ _ _ hp⟩⟩
  · intro name oct h
    have hnone : allNotes.findIdx? (fun n => n = upperString name) = none := by
      rw [List.findIdx?_eq_none_iff]
      intro x hx
      simp only [decide_eq_false_iff_not]
      exact fun heq => h (heq ▸ hx)
    simp [frequency_from_note_and_octave, noteKey, hnone]
  · intro t now st h
    simp [play_tone, h]

/-- Witness for the amended C5 at the valid note string "A#5". -/
theorem play_note_robustness_amended_witness :
    ∃ st2 log, play_note "A#5" 1 0 initAudioState = some (st2, log) ∧
      st2.playing = true := by
  obtain ⟨st2, log, h1, _, h3⟩ :=
    play_note_robustness_amended.1 "A#5" 1 0 initAudioState (by decide)
  exact ⟨st2, log, h1, (h3 (by decide)).1⟩

/-- A button of src/input.py lines 3-13. `has_long_press` records whether a
`long_press_callback` is registered (it is `None` at construction); the
down/up callbacks themselves are modelled by the emitted events. -/
structure Button where
  name : String
  debounce : Bool
  register_bit : ℕ
  has_long_press : Bool
  long_press_time_s : ℚ
deriving DecidableEq, Repr

/-- `Button.__init__`: callbacks unset, long-press threshold 1.0 s. -/
def mkButton (n : String) (d : Bool) (rb : ℕ) : Button := ⟨n, d, rb, false, 1⟩

/-- The callback invocations performed by `check_pressed`, in program order:
the button name together with which of its callbacks fired. -/
inductive EvKind where
  | down
  | up
  | longPress
deriving DecidableEq, Repr

/-- Python dict lookup on a name-keyed association list. -/
def dictGet {α : Type} (d : List (String × α)) (n : String) (dflt : α) : α :=
  match d with
  | [] => dflt
  | (k, v) :: rest => if k = n then v else dictGet rest n dflt

/-- Python dict assignment on a name-keyed association list. -/
def dictSet {α : Type} (d : List (String × α)) (n : String) (v : α) :
    List (String × α) :=
  match d with
  | [] => []
  | (k, w) :: rest => if k = n then (k, v) :: rest else (k, w) :: dictSet rest n v

namespace ButtonPress

/-- The class-level button table of `ButtonPress` (src/input.py lines 23-32). -/
def buttons : List Button :=
  [mkButton "B" true 1, mkButton "A" true 2, mkButton "Start" true 4,
   mkButton "Select" true 8, mkButton "Right" false 16, mkButton "Down" false 32,
   mkButton "Up" false 64, mkButton "Left" false 128]

/-- The per-instance dicts of `ButtonPress` (src/input.py lines 34-39). -/
structure BPState where
  prev_button_status : List (String × Bool)
  long_press_status : List (String × ℚ)
deriving DecidableEq, Repr

def initPrev : List (String × Bool) := buttons.map (fun c => (c.name, false))

def initLps : List (String × ℚ) := buttons.map (fun c => (c.name, (0 : ℚ)))

/-- `ButtonPress.__init__`: every button starts unlatched with cleared
long-press anchor. -/
def initState : BPState := ⟨initPrev, initLps⟩

/-- The body of the per-button loop of `ButtonPress.check_pressed`
(src/input.py lines 58-83), threading the state and appending the callback
invocations in program order. -/
def procButton (reg : ℕ) (cur_time : ℚ) (acc : BPState × List (String × EvKind))
    (b : Button) : BPState × List (String × EvKind) :=
  let s := acc.1
  if reg &&& b.register_bit ≠ 0 then
    let step1 : BPState × List (String × EvKind) :=
      if b.has_long_press then
        if 0 < dictGet s.long_press_status b.name 0 then
          if b.long_press_time_s ≤ cur_time - dictGet s.long_press_status b.name 0 then
            ({ s with long_press_status := dictSet s.long_press_status b.name 0 },
             acc.2 ++ [(b.name, EvKind.longPress)])
          else (s, acc.2)
        else ({ s with long_press_status := dictSet s.long_press_status b.name cur_time },
              acc.2)
      else (s, acc.2)
    if ¬ b.debounce ∨ (b.debounce ∧ ¬ dictGet step1.1.prev_button_status b.name false) then
      ({ step1.1 with
          prev_button_status := dictSet step1.1.prev_button_status b.name true },
       step1.2 ++ [(b.name, EvKind.down)])
    else step1
  else
    let s1 :=
      if b.has_long_press ∧ 0 < dictGet s.long_press_status b.name 0 then
        { s with long_press_status := dictSet s.long_press_status b.name 0 }
      else s
    if b.debounce ∧ dictGet s1.prev_button_status b.name false then
      ({ s1 with prev_button_status := dictSet s1.prev_button_status b.name false },
       acc.2 ++ [(b.name, EvKind.up)])
    else (s1, acc.2)

/-- `ButtonPress.check_pressed` (src/input.py lines 51-83): fold the loop body
over the button table, returning the new state and the callback invocations
of this tick. -/
def check_pressed (reg : ℕ) (cur_time : ℚ) (s : BPState) :
    BPState × List (String × EvKind) :=
  buttons.foldl (procButton reg cur_time) (s, [])

/-- `check_pressed` applied once per entry of `times` with a constant raw
mask, concatenating the emitted callback invocations. -/
def runTicks (reg : ℕ) : List ℚ → BPState → BPState × List (String × EvKind)
  | [], s => (s, [])
  | t :: ts, s =>
    let r1 := check_pressed reg t s
    let r2 := runTicks reg ts r1.1
    (r2.1, r1.2 ++ r2.2)

/-- The invocations belonging to the button named `n`. -/
def evFor (n : String) (evs : List (String × EvKind)) : List (String × EvKind) :=
  evs.filter (fun e => e.1 == n)

/-- The state after a press of button `b` has been latched. -/
def pressedState (b : Button) : BPState := ⟨dictSet initPrev b.name true, initLps⟩

lemma cp_first : ∀ b ∈ buttons, ∀ t : ℚ,
    check_pressed b.register_bit t initState =
      (pressedState b, [(b.name, EvKind.down)]) := by
  intro b hb t
  fin_cases hb <;> rfl

lemma cp_steady : ∀ b ∈ buttons, ∀ t : ℚ,
    check_pressed b.register_bit t (pressedState b) =
      (pressedState b, if b.debounce then [] else [(b.name, EvKind.down)]) := by
  intro b hb t
  fin_cases hb <;> rfl

lemma cp_release : ∀ b ∈ buttons, b.debounce = true → ∀ t : ℚ,
    check_pressed 0 t (pressedState b) = (initState, [(b.name, EvKind.up)]) := by
  intro b hb hdeb t
  fin_cases hb <;> first | rfl | exact absurd hdeb (by decide)

lemma cp_idle (t : ℚ) : check_pressed 0 t initState = (initState, []) := rfl

lemma flatten_replicate_nil {α : Type} : ∀ n : ℕ,
    (List.replicate n ([] : List α)).flatten = [] := by
  intro n
  induction n with
  | zero => rfl
  | succ n ih => simp [List.replicate_succ, ih]

lemma flatten_replicate_singleton {α : Type} (a : α) : ∀ n : ℕ,
    (List.replicate n [a]).flatten = List.replicate n a := by
  intro n
  induction n with
  | zero => rfl
  | succ n ih => simp [List.replicate_succ, ih]

lemma runTicks_steady (reg : ℕ) (s : BPState) (o : List (String × EvKind))
    (h : ∀ t, check_pressed reg t s = (s, o)) :
    ∀ ts : List ℚ, runTicks reg ts s = (s, (List.replicate ts.length o).flatten) := by
  intro ts
  induction ts with
  | nil => simp [runTicks]
  | cons t ts ih => simp [runTicks, h t, ih, List.replicate_succ]

lemma evFor_replicate_self (n : String) (e : EvKind) (k : ℕ) :
    evFor n (List.replicate k (n, e)) = List.replicate k (n, e) := by
  induction k with
  | zero => rfl
  | succ k ih => simp [evFor, List.replicate_succ, List.filter_cons, ih]

/-- Claim C3: holding a raw mask equal to a debounced button's bit for a
non-empty run of ticks invokes that button's down callback exactly once, and
after the bit clears a non-empty run of ticks invokes its up callback
exactly once; a non-debounced button's down callback is invoked on every one
of the held ticks. -/
theorem debounced_press_events : ∀ b ∈ buttons, ∀ ts : List ℚ, ts ≠ [] →
    (b.debounce = true →
      evFor b.name (runTicks b.register_bit ts initState).2 =
        [(b.name, EvKind.down)] ∧
      ∀ us : List ℚ, us ≠ [] →
        evFor b.name (runTicks 0 us (runTicks b.register_bit ts initState).1).2 =
          [(b.name, EvKind.up)]) ∧
    (b.debounce = false →
      evFor b.name (runTicks b.register_bit ts initState).2 =
        List.replicate ts.length (b.name, EvKind.down)) := by
  intro b hb ts hts
  obtain ⟨t, ts2, rfl⟩ := List.exists_cons_of_ne_nil hts
  constructor
  · intro hdeb
    have hsteady : ∀ u, check_pressed b.register_bit u (pressedState b) =
        (pressedState b, []) := by
      intro u
      simpa [hdeb] using cp_steady b hb u
    have hrun : runTicks b.register_bit (t :: ts2) initState =
        (pressedState b, [(b.name, EvKind.down)]) := by
      simp [runTicks, cp_first b hb t, runTicks_steady _ _ _ hsteady ts2,
        flatten_replicate_nil]
    constructor
    · simp [hrun, evFor, List.filter]
    · intro us hus
      obtain ⟨u, us2, rfl⟩ := List.exists_cons_of_ne_nil hus
      have hidle : ∀ w : ℚ, check_pressed 0 w initState = (initState, []) :=
        fun w => cp_idle w
      have hstate : (runTicks b.register_bit (t :: ts2) initState).1 =
          pressedState b := by rw [hrun]
      rw [hstate]
      have hrun2 : runTicks 0 (u :: us2) (pressedState b) =
          (initState, [(b.name, EvKind.up)]) := by
        simp [runTicks, cp_release b hb hdeb u,
          runTicks_steady _ _ _ hidle us2, flatten_replicate_nil]
      simp [hrun2, evFor, List.filter]
  · intro hdeb
    have hsteady : ∀ u, check_pressed b.register_bit u (pressedState b) =
        (pressedState b, [(b.name, EvKind.down)]) := by
      intro u
      simpa [hdeb] using cp_steady b hb u
    have hrun : runTicks b.register_bit (t :: ts2) initState =
        (pressedState b, (b.name, EvKind.down) :: List.replicate ts2.length
          (b.name, EvKind.down)) := by
      simp [runTicks, cp_first b hb t, runTicks_steady _ _ _ hsteady ts2,
        flatten_replicate_singleton]
    rw [hrun]
    simp only [List.length_cons, ← List.replicate_succ]
    exact evFor_replicate_self b.name EvKind.down (ts2.length + 1)

/-- Witness for C3: button "B" (debounced) held for one tick emits exactly
one down invocation. -/
theorem debounced_press_events_witness :
    evFor "B" (runTicks 1 [(0 : ℚ)] initState).2 = [("B", EvKind.down)] :=
  ((debounced_press_events (mkButton "B" true 1) (by decide) [0] (by decide)).1
    rfl).1

end ButtonPress

/-- Constants of src/code.py lines 37-46. -/
def NUM_LEDS : ℤ := 5

def ACCEL_SHAKE_THRESH : ℚ := 8

def TICK_RATE_S : ℚ := 1 / 10

def SHAKE_TO_CLEAR_TIME_S : ℚ := 3 / 2

/-- `ticks_per_sec = 1.0 / TICK_RATE_S` (src/code.py line 434). -/
def ticks_per_sec : ℚ := 1 / TICK_RATE_S

/-- `shake_ticks_to_activate = ticks_per_sec * SHAKE_TO_CLEAR_TIME_S`
(src/code.py line 439). -/
def shake_ticks_to_activate : ℚ := ticks_per_sec * SHAKE_TO_CLEAR_TIME_S

/-- `shake_forgiveness = 2` (src/code.py line 440). -/
def shake_forgiveness : ℕ := 2

/-- Python `int()` truncation toward zero on a rational. -/
def pyInt (q : ℚ) : ℤ := if 0 ≤ q then ⌊q⌋ else -⌊-q⌋

/-- `int(NUM_LEDS - ((shake_counter / shake_ticks_to_activate) * NUM_LEDS))`
(src/code.py line 464). -/
def new_num_leds (c : ℕ) : ℤ :=
  pyInt ((NUM_LEDS : ℚ) - ((c : ℚ) / shake_ticks_to_activate) * (NUM_LEDS : ℚ))

/-- The shake-detection state of `main_loop` (src/code.py lines 435-447):
the previous accelerometer sample (seeded 0,0,0), the consecutive-shake and
no-shake tick counters, and the LED count last computed. -/
structure ShakeState where
  prev_X : ℚ
  prev_Y : ℚ
  prev_Z : ℚ
  shake_counter : ℕ
  no_shake_counter : ℕ
  prev_num_leds : ℤ
deriving DecidableEq, Repr

/-- The externally visible effects of one shake-detection tick: whether
`on_shake` fired (canvas reset) and which LED count, if any, was written by
`show_color_on_leds`. -/
structure ShakeEffect where
  triggered : Bool
  led_shown : Option ℤ
deriving DecidableEq, Repr

/-- One iteration of the shake-detection part of `main_loop`
(src/code.py lines 454-484): per-axis absolute deltas against the previous
sample; on a shaking tick reset the calm counter, compute `new_num_leds`,
show it when it changed, then either fire `on_shake` and reset the counter
(when `shake_counter >= shake_ticks_to_activate`) or increment the counter;
on a calm tick during a streak, restore the full LED count and reset the
counter once `no_shake_counter >= shake_forgiveness`, always incrementing
the calm counter; finally store the sample as the previous one. -/
def shakeStep (sample : ℚ × ℚ × ℚ) (s : ShakeState) : ShakeState × ShakeEffect :=
  if ACCEL_SHAKE_THRESH ≤ |s.prev_X - sample.1| ∨
      ACCEL_SHAKE_THRESH ≤ |s.prev_Y - sample.2.1| ∨
      ACCEL_SHAKE_THRESH ≤ |s.prev_Z - sample.2.2| then
    let nl := new_num_leds s.shake_counter
    let led : Option ℤ := if nl ≠ s.prev_num_leds then some nl else none
    if shake_ticks_to_activate ≤ (s.shake_counter : ℚ) then
      (⟨sample.1, sample.2.1, sample.2.2, 0, 0, nl⟩, ⟨true, led⟩)
    else
      (⟨sample.1, sample.2.1, sample.2.2, s.shake_counter + 1, 0, nl⟩, ⟨false, led⟩)
  else
    if 0 < s.shake_counter then
      if shake_forgiveness ≤ s.no_shake_counter then
        (⟨sample.1, sample.2.1, sample.2.2, 0, s.no_shake_counter + 1,
          s.prev_num_leds⟩, ⟨false, some NUM_LEDS⟩)
      else
        (⟨sample.1, sample.2.1, sample.2.2, s.shake_counter,
          s.no_shake_counter + 1, s.prev_num_leds⟩, ⟨false, none⟩)
    else
      (⟨sample.1, sample.2.1, sample.2.2, s.shake_counter, s.no_shake_counter,
        s.prev_num_leds⟩, ⟨false, none⟩)

/-- Iterating `shakeStep` over a list of samples, collecting the effects. -/
def runShake : List (ℚ × ℚ × ℚ) → ShakeState → ShakeState × List ShakeEffect
  | [], s => (s, [])
  | a :: rest, s =>
    let r1 := shakeStep a s
    let r2 := runShake rest r1.1
    (r2.1, r1.2 :: r2.2)

/-- The state at the top of `main_loop`: previous sample (0,0,0), both
counters 0, all LEDs lit. -/
def initShake : ShakeState := ⟨0, 0, 0, 0, 0, NUM_LEDS⟩

def prevOf (s : ShakeState) : ℚ × ℚ × ℚ := (s.prev_X, s.prev_Y, s.prev_Z)

/-- Sample `a` differs from `p` by strictly more than the shake threshold on
at least one axis. -/
def overThresh (p a : ℚ × ℚ × ℚ) : Bool :=
  decide (ACCEL_SHAKE_THRESH < |p.1 - a.1|) ||
  decide (ACCEL_SHAKE_THRESH < |p.2.1 - a.2.1|) ||
  decide (ACCEL_SHAKE_THRESH < |p.2.2 - a.2.2|)

/-- Sample `a` is calm relative to `p`: below threshold on every axis. -/
def calmSample (p a : ℚ × ℚ × ℚ) : Bool :=
  decide (|p.1 - a.1| < ACCEL_SHAKE_THRESH) &&
  decide (|p.2.1 - a.2.1| < ACCEL_SHAKE_THRESH) &&
  decide (|p.2.2 - a.2.2| < ACCEL_SHAKE_THRESH)

/-- Each sample of the list relates to its predecessor (starting from `p`)
by the pairwise test `f`. -/
def chainBy (f : (ℚ × ℚ × ℚ) → (ℚ × ℚ × ℚ) → Bool) :
    (ℚ × ℚ × ℚ) → List (ℚ × ℚ × ℚ) → Bool
  | _, [] => true
  | p, a :: rest => f p a && chainBy f a rest

lemma stta_val : shake_ticks_to_activate = 15 := by
  norm_num [shake_ticks_to_activate, ticks_per_sec, TICK_RATE_S, SHAKE_TO_CLEAR_TIME_S]

lemma shakeStep_shaking_inc (s : ShakeState) (a : ℚ × ℚ × ℚ)
    (hcond : ACCEL_SHAKE_THRESH ≤ |s.prev_X - a.1| ∨
      ACCEL_SHAKE_THRESH ≤ |s.prev_Y - a.2.1| ∨
      ACCEL_SHAKE_THRESH ≤ |s.prev_Z - a.2.2|)
    (hc : s.shake_counter < 15) :
    shakeStep a s =
      (⟨a.1, a.2.1, a.2.2, s.shake_counter + 1, 0, new_num_leds s.shake_counter⟩,
       ⟨false, if new_num_leds s.shake_counter ≠ s.prev_num_leds then
          some (new_num_leds s.shake_counter) else none⟩) := by
  have hn : ¬ shake_ticks_to_activate ≤ (s.shake_counter : ℚ) := by
    rw [stta_val]
    exact_mod_cast Nat.not_le.mpr hc
  simp only [shakeStep]
  rw [if_pos hcond, if_neg hn]

lemma shakeStep_shaking_trigger (s : ShakeState) (a : ℚ × ℚ × ℚ)
    (hcond : ACCEL_SHAKE_THRESH ≤ |s.prev_X - a.1| ∨
      ACCEL_SHAKE_THRESH ≤ |s.prev_Y - a.2.1| ∨
      ACCEL_SHAKE_THRESH ≤ |s.prev_Z - a.2.2|)
    (hc : 15 ≤ s.shake_counter) :
    shakeStep a s =
      (⟨a.1, a.2.1, a.2.2, 0, 0, new_num_leds s.shake_counter⟩,
       ⟨true, if new_num_leds s.shake_counter ≠ s.prev_num_leds then
          some (new_num_leds s.shake_counter) else none⟩) := by
  have hy : shake_ticks_to_activate ≤ (s.shake_counter : ℚ) := by
    rw [stta_val]
    exact_mod_cast hc
  simp only [shakeStep]
  rw [if_pos hcond, if_pos hy]

lemma calmSample_props {p a : ℚ × ℚ × ℚ} (h : calmSample p a = true) :
    |p.1 - a.1| < ACCEL_SHAKE_THRESH ∧ |p.2.1 - a.2.1| < ACCEL_SHAKE_THRESH ∧
      |p.2.2 - a.2.2| < ACCEL_SHAKE_THRESH := by
  simpa [calmSample, Bool.and_eq_true, decide_eq_true_eq, and_assoc] using h

lemma shakeStep_calm_keep (s : ShakeState) (a : ℚ × ℚ × ℚ)
    (hcalm : calmSample (prevOf s) a = true)
    (hpos : 0 < s.shake_counter) (hns : s.no_shake_counter < 2) :
    shakeStep a s =
      (⟨a.1, a.2.1, a.2.2, s.shake_counter, s.no_shake_counter + 1,
        s.prev_num_leds⟩, ⟨false, none⟩) := by
  obtain ⟨h1, h2, h3⟩ := calmSample_props hcalm
  have hno : ¬ (ACCEL_SHAKE_THRESH ≤ |s.prev_X - a.1| ∨
      ACCEL_SHAKE_THRESH ≤ |s.prev_Y - a.2.1| ∨
      ACCEL_SHAKE_THRESH ≤ |s.prev_Z - a.2.2|) := by
    push_neg
    exact ⟨h1, h2, h3⟩
  have hf : ¬ shake_forgiveness ≤ s.no_shake_counter := by
    simp only [shake_forgiveness]
    omega
  simp only [shakeStep]
  rw [if_neg hno, if_pos hpos, if_neg hf]

lemma shakeStep_calm_reset (s : ShakeState) (a : ℚ × ℚ × ℚ)
    (hcalm : calmSample (prevOf s) a = true)
    (hpos : 0 < s.shake_counter) (hns : 2 ≤ s.no_shake_counter) :
    shakeStep a s =
      (⟨a.1, a.2.1, a.2.2, 0, s.no_shake_counter + 1, s.prev_num_leds⟩,
       ⟨false, some NUM_LEDS⟩) := by
  obtain ⟨h1, h2, h3⟩ := calmSample_props hcalm
  have hno : ¬ (ACCEL_SHAKE_THRESH ≤ |s.prev_X - a.1| ∨
      ACCEL_SHAKE_THRESH ≤ |s.prev_Y - a.2.1| ∨
      ACCEL_SHAKE_THRESH ≤ |s.prev_Z - a.2.2|) := by
    push_neg
    exact ⟨h1, h2, h3⟩
  have hf : shake_forgiveness ≤ s.no_shake_counter := by
    simpa [shake_forgiveness] using hns
  simp only [shakeStep]
  rw [if_neg hno, if_pos hpos, if_pos hf]

lemma overThresh_le {p a : ℚ × ℚ × ℚ} (h : overThresh p a = true) :
    ACCEL_SHAKE_THRESH ≤ |p.1 - a.1| ∨ ACCEL_SHAKE_THRESH ≤ |p.2.1 - a.2.1| ∨
      ACCEL_SHAKE_THRESH ≤ |p.2.2 - a.2.2| := by
  have h2 : ACCEL_SHAKE_THRESH < |p.1 - a.1| ∨
      ACCEL_SHAKE_THRESH < |p.2.1 - a.2.1| ∨
      ACCEL_SHAKE_THRESH < |p.2.2 - a.2.2| := by
    simpa [overThresh, Bool.or_eq_true, decide_eq_true_eq, or_assoc] using h
  rcases h2 with h2 | h2 | h2
  · exact Or.inl h2.le
  · exact Or.inr (Or.inl h2.le)
  · exact Or.inr (Or.inr h2.le)

lemma runShake_shaking_count : ∀ (l : List (ℚ × ℚ × ℚ)) (s : ShakeState),
    chainBy overThresh (prevOf s) l = true →
    s.shake_counter + l.length ≤ 15 →
    (runShake l s).1.shake_counter = s.shake_counter + l.length ∧
    prevOf (runShake l s).1 = l.getLastD (prevOf s) ∧
    ∀ e ∈ (runShake l s).2, e.triggered = false := by
  intro l
  induction l with
  | nil => intro s _ _; simp [runShake]
  | cons a rest ih =>
    intro s hch hb
    have hsplit : overThresh (prevOf s) a = true ∧ chainBy overThresh a rest = true := by
      simpa [chainBy, Bool.and_eq_true] using hch
    have hcond := overThresh_le hsplit.1
    have hc : s.shake_counter < 15 := by
      simp only [List.length_cons] at hb
      omega
    have hstep := shakeStep_shaking_inc s a (by simpa [prevOf] using hcond) hc
    have hprev2 : prevOf (⟨a.1, a.2.1, a.2.2, s.shake_counter + 1, 0,
        new_num_leds s.shake_counter⟩ : ShakeState) = a := by
      simp [prevOf]
    have hrec := ih ⟨a.1, a.2.1, a.2.2, s.shake_counter + 1, 0,
        new_num_leds s.shake_counter⟩
      (by rw [hprev2]; exact hsplit.2)
      (by show s.shake_counter + 1 + rest.length ≤ 15
          simp only [List.length_cons] at hb
          omega)
    refine ⟨?_, ?_, ?_⟩
    · simp only [runShake, hstep]
      simp only [List.length_cons]
      rw [hrec.1]
      show s.shake_counter + 1 + rest.length = s.shake_counter + (rest.length + 1)
      omega
    · simp only [runShake, hstep]
      rw [List.getLastD_cons]
      rw [hrec.2.1, hprev2]
    · intro e he
      simp only [runShake, hstep, List.mem_cons] at he
      rcases he with rfl | he
      · rfl
      · exact hrec.2.2 e he

lemma runShake_append : ∀ (l1 l2 : List (ℚ × ℚ × ℚ)) (s : ShakeState),
    runShake (l1 ++ l2) s =
      ((runShake l2 (runShake l1 s).1).1,
       (runShake l1 s).2 ++ (runShake l2 (runShake l1 s).1).2) := by
  intro l1
  induction l1 with
  | nil => intro l2 s; simp [runShake]
  | cons a rest ih => intro l2 s; simp [runShake, ih]

lemma chainBy_append (f : (ℚ × ℚ × ℚ) → (ℚ × ℚ × ℚ) → Bool) :
    ∀ (l1 l2 : List (ℚ × ℚ × ℚ)) (p : ℚ × ℚ × ℚ),
      chainBy f p (l1 ++ l2) = (chainBy f p l1 && chainBy f (l1.getLastD p) l2) := by
  intro l1
  induction l1 with
  | nil => intro l2 p; simp [chainBy]
  | cons a rest ih =>
    intro l2 p
    simp only [List.cons_append, chainBy, List.append_eq, ih, List.getLastD_cons,
      Bool.and_assoc]

/-- Claim C6 (amended): from a zero shake counter, feeding
`shake_ticks_to_activate + 1 = 16` consecutive samples, each differing from
its predecessor by more than the threshold on some axis, produces the
Triggered effect (the `on_shake` canvas reset) on the 16th tick, not
earlier, and resets the shake counter to 0. -/
theorem shake_trigger_amended (l : List (ℚ × ℚ × ℚ)) (a : ℚ × ℚ × ℚ)
    (s : ShakeState) (h0 : s.shake_counter = 0) (hlen : l.length = 15)
    (hch : chainBy overThresh (prevOf s) (l ++ [a]) = true) :
    (runShake (l ++ [a]) s).1.shake_counter = 0 ∧
    (∀ e ∈ (runShake l s).2, e.triggered = false) ∧
    ∃ e : ShakeEffect, e.triggered = true ∧
      (runShake (l ++ [a]) s).2 = (runShake l s).2 ++ [e] := by
  have hs : chainBy overThresh (prevOf s) l = true ∧
      chainBy overThresh (l.getLastD (prevOf s)) [a] = true := by
    have := hch
    rw [chainBy_append] at this
    simpa [Bool.and_eq_true] using this
  have hcount := runShake_shaking_count l s hs.1 (by omega)
  have hover : overThresh (l.getLastD (prevOf s)) a = true := by
    simpa [chainBy, Bool.and_eq_true] using hs.2
  have hc15 : (runShake l s).1.shake_counter = 15 := by
    rw [hcount.1, h0, hlen]
  have hcond := overThresh_le hover
  have hp := hcount.2.1
  have hx : (runShake l s).1.prev_X = (l.getLastD (prevOf s)).1 :=
    congrArg Prod.fst hp
  have hy2 : (runShake l s).1.prev_Y = (l.getLastD (prevOf s)).2.1 :=
    congrArg (fun q => q.2.1) hp
  have hz : (runShake l s).1.prev_Z = (l.getLastD (prevOf s)).2.2 :=
    congrArg (fun q => q.2.2) hp
  have hstep := shakeStep_shaking_trigger (runShake l s).1 a
    (by rw [hx, hy2, hz]; exact hcond) (by rw [hc15])
  refine ⟨?_, hcount.2.2, ?_⟩
  · rw [runShake_append]
    simp [runShake, hstep]
  · refine ⟨⟨true, if new_num_leds (runShake l s).1.shake_counter ≠
        (runShake l s).1.prev_num_leds then
        some (new_num_leds (runShake l s).1.shake_counter) else none⟩, rfl, ?_⟩
    rw [runShake_append]
    simp [runShake, hstep]

def sampleHi : ℚ × ℚ × ℚ := (10, 0, 0)

def sampleLo : ℚ × ℚ × ℚ := (0, 0, 0)

/-- Fifteen consecutive samples, each differing from its predecessor (and
the first from the zero seed) by 10 > 8 on the x axis. -/
def shakeSamples15 : List (ℚ × ℚ × ℚ) :=
  [sampleHi, sampleLo, sampleHi, sampleLo, sampleHi, sampleLo, sampleHi,
   sampleLo, sampleHi, sampleLo, sampleHi, sampleLo, sampleHi, sampleLo,
   sampleHi]

lemma chain15 : chainBy overThresh (prevOf initShake) shakeSamples15 = true := by
  norm_num [shakeSamples15, sampleHi, sampleLo, chainBy, overThresh, prevOf,
    initShake, ACCEL_SHAKE_THRESH]

/-- Counterexample for claim C6: feeding exactly
N = `shake_ticks_to_activate` = 15 consecutive over-threshold samples from a
zero shake counter does NOT produce the Triggered effect on tick N (nor any
earlier tick), and the counter ends at 15, not 0: the trigger would only
fire on the 16th consecutive shaking tick. -/
theorem shake_trigger_at_N_counterexample :
    shakeSamples15.length = 15 ∧
    chainBy overThresh (prevOf initShake) shakeSamples15 = true ∧
    (∀ e ∈ (runShake shakeSamples15 initShake).2, e.triggered = false) ∧
    (runShake shakeSamples15 initShake).1.shake_counter = 15 := by
  have h := runShake_shaking_count shakeSamples15 initShake chain15
    (by simp [initShake, shakeSamples15])
  refine ⟨rfl, chain15, h.2.2, ?_⟩
  rw [h.1]
  simp [initShake, shakeSamples15]

/-- Witness for the amended C6: the concrete 16-sample run triggers and
resets the counter to 0. -/
theorem shake_trigger_amended_witness :
    (runShake (shakeSamples15 ++ [sampleLo]) initShake).1.shake_counter = 0 :=
  (shake_trigger_amended shakeSamples15 sampleLo initShake rfl rfl
    (by norm_num [shakeSamples15, sampleHi, sampleLo, chainBy, overThresh,
      prevOf, initShake, ACCEL_SHAKE_THRESH])).1

/-- Counterexample for claim C8: the first sample (0, 0, 10) does count as a
shaking tick (the shake counter becomes 1), because the previous sample is
seeded to (0,0,0) rather than to the first observed reading. -/
theorem first_tick_shake_counterexample :
    (shakeStep (0, 0, 10) initShake).1.shake_counter = 1 := by
  have hstep := shakeStep_shaking_inc initShake (0, 0, 10)
    (by norm_num [initShake, ACCEL_SHAKE_THRESH])
    (by norm_num [initShake])
  rw [hstep]
  rfl

/-- Claim C8 (amended): the previous sample is seeded to (0,0,0), so the
first tick is compared against zero: it counts as a shaking tick exactly
when the first sample reaches the shake threshold in absolute value on some
axis. -/
theorem first_tick_zero_seed_amended :
    prevOf initShake = (0, 0, 0) ∧
    ∀ x y z : ℚ, ((shakeStep (x, y, z) initShake).1.shake_counter = 1 ↔
      (ACCEL_SHAKE_THRESH ≤ |x| ∨ ACCEL_SHAKE_THRESH ≤ |y| ∨
        ACCEL_SHAKE_THRESH ≤ |z|)) := by
  refine ⟨rfl, ?_⟩
  intro x y z
  by_cases h : ACCEL_SHAKE_THRESH ≤ |x| ∨ ACCEL_SHAKE_THRESH ≤ |y| ∨
      ACCEL_SHAKE_THRESH ≤ |z|
  · have hcond : ACCEL_SHAKE_THRESH ≤ |initShake.prev_X - (x, y, z).1| ∨
        ACCEL_SHAKE_THRESH ≤ |initShake.prev_Y - (x, y, z).2.1| ∨
        ACCEL_SHAKE_THRESH ≤ |initShake.prev_Z - (x, y, z).2.2| := by
      simpa [initShake, zero_sub, abs_neg] using h
    rw [shakeStep_shaking_inc initShake (x, y, z) hcond (by norm_num [initShake])]
    simp [initShake, h]
  · have hcond : ¬ (ACCEL_SHAKE_THRESH ≤ |initShake.prev_X - (x, y, z).1| ∨
        ACCEL_SHAKE_THRESH ≤ |initShake.prev_Y - (x, y, z).2.1| ∨
        ACCEL_SHAKE_THRESH ≤ |initShake.prev_Z - (x, y, z).2.2|) := by
      simpa [initShake, zero_sub, abs_neg] using h
    simp only [shakeStep]
    rw [if_neg hcond]
    simp [initShake, h]

/-- Claim C7 (amended): while a shake streak is in progress (counter > 0,
calm counter 0), up to `shake_forgiveness` = 2 consecutive calm samples do
not reset the shake counter; exactly `shake_forgiveness + 1` = 3 consecutive
calm samples do reset it to 0, restoring the full LED count on that tick. -/
theorem shake_forgiveness_amended (s : ShakeState) (l : List (ℚ × ℚ × ℚ))
    (hc : 0 < s.shake_counter) (hn : s.no_shake_counter = 0)
    (hch : chainBy calmSample (prevOf s) l = true) :
    (l.length ≤ 2 → (runShake l s).1.shake_counter = s.shake_counter) ∧
    (l.length = 3 → (runShake l s).1.shake_counter = 0 ∧
      ∃ e1 e2 e3 : ShakeEffect, (runShake l s).2 = [e1, e2, e3] ∧
        e3.led_shown = some NUM_LEDS) := by
  rcases l with _ | ⟨a, _ | ⟨b, _ | ⟨c, _ | ⟨d, rest⟩⟩⟩⟩
  · exact ⟨fun _ => rfl, by simp⟩
  · have h1 : calmSample (prevOf s) a = true := by
      simpa [chainBy, Bool.and_eq_true] using hch
    have e1 := shakeStep_calm_keep s a h1 hc (by omega)
    refine ⟨fun _ => ?_, by simp⟩
    simp [runShake, e1]
  · have hsplit : calmSample (prevOf s) a = true ∧ calmSample a b = true := by
      simpa [chainBy, Bool.and_eq_true] using hch
    have e1 := shakeStep_calm_keep s a hsplit.1 hc (by omega)
    have e2 := shakeStep_calm_keep
      ⟨a.1, a.2.1, a.2.2, s.shake_counter, s.no_shake_counter + 1, s.prev_num_leds⟩
      b (by simpa [prevOf] using hsplit.2) hc
      (by show s.no_shake_counter + 1 < 2; omega)
    refine ⟨fun _ => ?_, by simp⟩
    simp [runShake, e1, e2]
  · have hsplit : calmSample (prevOf s) a = true ∧ calmSample a b = true ∧
        calmSample b c = true := by
      simpa [chainBy, Bool.and_eq_true, and_assoc] using hch
    have e1 := shakeStep_calm_keep s a hsplit.1 hc (by omega)
    have e2 := shakeStep_calm_keep
      ⟨a.1, a.2.1, a.2.2, s.shake_counter, s.no_shake_counter + 1, s.prev_num_leds⟩
      b (by simpa [prevOf] using hsplit.2.1) hc
      (by show s.no_shake_counter + 1 < 2; omega)
    have e3 := shakeStep_calm_reset
      ⟨b.1, b.2.1, b.2.2, s.shake_counter, s.no_shake_counter + 1 + 1,
        s.prev_num_leds⟩
      c (by simpa [prevOf] using hsplit.2.2) hc
      (by show 2 ≤ s.no_shake_counter + 1 + 1; omega)
    refine ⟨fun hlen => by simp at hlen, fun _ => ?_⟩
    refine ⟨?_, ⟨false, none⟩, ⟨false, none⟩, ⟨false, some NUM_LEDS⟩, ?_, rfl⟩
    · simp [runShake, e1, e2, e3]
    · simp [runShake, e1, e2, e3]
  · exact ⟨fun hlen => by simp at hlen, fun hlen => by simp at hlen⟩

/-- Counterexample for claim C7: in a mid-shake state with shake counter 5,
inserting exactly `shake_forgiveness` = 2 consecutive calm samples does NOT
reset the shake counter (it stays 5); only a third calm tick would. -/
theorem shake_forgiveness_counterexample :
    chainBy calmSample (prevOf (⟨10, 0, 0, 5, 0, 5⟩ : ShakeState))
      [sampleHi, sampleHi] = true ∧
    (runShake [sampleHi, sampleHi] ⟨10, 0, 0, 5, 0, 5⟩).1.shake_counter = 5 ∧
    (5 : ℕ) ≠ 0 := by
  have hcalm1 : calmSample (prevOf (⟨10, 0, 0, 5, 0, 5⟩ : ShakeState))
      sampleHi = true := by
    norm_num [calmSample, prevOf, sampleHi, ACCEL_SHAKE_THRESH]
  have e1 := shakeStep_calm_keep ⟨10, 0, 0, 5, 0, 5⟩ sampleHi hcalm1
    (by norm_num) (by norm_num)
  have hcalm2 : calmSample
      (prevOf (⟨sampleHi.1, sampleHi.2.1, sampleHi.2.2, 5, 0 + 1, 5⟩ : ShakeState))
      sampleHi = true := by
    norm_num [calmSample, prevOf, sampleHi, ACCEL_SHAKE_THRESH]
  have e2 := shakeStep_calm_keep
    ⟨sampleHi.1, sampleHi.2.1, sampleHi.2.2, 5, 0 + 1, 5⟩ sampleHi hcalm2
    (by norm_num) (by norm_num)
  refine ⟨?_, ?_, by norm_num⟩
  · norm_num [chainBy, hcalm1, calmSample, prevOf, sampleHi, ACCEL_SHAKE_THRESH]
  · simp [runShake, e1, e2]

/-- Witness for the amended C7: counter 5, three concrete calm samples,
counter resets to 0. -/
theorem shake_forgiveness_amended_witness :
    (runShake [sampleHi, sampleHi, sampleHi]
      (⟨10, 0, 0, 5, 0, 5⟩ : ShakeState)).1.shake_counter = 0 :=
  ((shake_forgiveness_amended ⟨10, 0, 0, 5, 0, 5⟩ [sampleHi, sampleHi, sampleHi]
    (by norm_num) rfl
    (by norm_num [chainBy, calmSample, prevOf, sampleHi, ACCEL_SHAKE_THRESH])).2
    rfl).1

lemma new_num_leds_eq (c : ℕ) (hc : c ≤ 15) :
    new_num_leds c = NUM_LEDS - ⌈(c : ℚ) / 3⌉ := by
  have hcQ : (c : ℚ) ≤ 15 := by exact_mod_cast hc
  have harg : ((c : ℚ) / shake_ticks_to_activate) * ((NUM_LEDS : ℤ) : ℚ) =
      (c : ℚ) / 3 := by
    rw [stta_val]
    norm_num [NUM_LEDS]
    ring
  unfold new_num_leds pyInt
  rw [harg]
  have hnn : (0 : ℚ) ≤ ((NUM_LEDS : ℤ) : ℚ) - (c : ℚ) / 3 := by
    norm_num [NUM_LEDS]
    linarith
  rw [if_pos hnn]
  rw [show ((NUM_LEDS : ℤ) : ℚ) - (c : ℚ) / 3 =
    -((c : ℚ) / 3) + ((NUM_LEDS : ℤ) : ℚ) by ring]
  rw [Int.floor_add_int, Int.floor_neg]
  ring

/-- Counterexample for claim C9: on the shaking tick with shakeTicks = 1 the
code shows 4 LEDs, but the claimed formula
`totalLeds - floor((shakeTicks / ticksToTrigger) * totalLeds)` gives 5 (the
code floors the whole expression, which differs whenever the product is not
an integer). -/
theorem led_value_counterexample :
    (runShake [sampleHi, sampleLo] initShake).2.map (fun e => e.led_shown) =
      [none, some 4] ∧
    NUM_LEDS - ⌊((1 : ℚ) / shake_ticks_to_activate) * ((NUM_LEDS : ℤ) : ℚ)⌋ = 5 ∧
    ((4 : ℤ) ≠ 5) := by
  have hl0 : new_num_leds 0 = 5 := by
    rw [new_num_leds_eq 0 (by norm_num)]
    norm_num [NUM_LEDS]
  have hl1 : new_num_leds 1 = 4 := by
    norm_num [new_num_leds, pyInt, stta_val, NUM_LEDS, Int.floor_eq_iff]
  have e1 := shakeStep_shaking_inc initShake sampleHi
    (by norm_num [initShake, sampleHi, ACCEL_SHAKE_THRESH])
    (by norm_num [initShake])
  have e2 := shakeStep_shaking_inc ⟨10, 0, 0, 1, 0, 5⟩ sampleLo
    (by norm_num [sampleLo, ACCEL_SHAKE_THRESH])
    (by norm_num)
  have e1a : shakeStep sampleHi initShake =
      (⟨10, 0, 0, 1, 0, 5⟩, ⟨false, none⟩) := by
    rw [e1]
    norm_num [initShake, sampleHi, hl0, NUM_LEDS]
  have e2a : shakeStep sampleLo (⟨10, 0, 0, 1, 0, 5⟩ : ShakeState) =
      (⟨0, 0, 0, 2, 0, 4⟩, ⟨false, some 4⟩) := by
    rw [e2]
    norm_num [sampleLo, hl1]
  refine ⟨?_, ?_, by norm_num⟩
  · simp [runShake, e1a, e2a]
  · have hf : ⌊((1 : ℚ) / shake_ticks_to_activate) * ((NUM_LEDS : ℤ) : ℚ)⌋ = 0 := by
      rw [stta_val]
      norm_num [NUM_LEDS, Int.floor_eq_iff]
    rw [hf]
    norm_num [NUM_LEDS]

/-- Claim C9 (amended): on every shaking tick with shakeTicks ≤
ticksToTrigger, the LED value computed (stored in `prev_num_leds`, and shown
when it changed) equals `totalLeds - ceil(shakeTicks · totalLeds /
ticksToTrigger) = NUM_LEDS - ⌈shakeTicks / 3⌉`, which lies in
[0, NUM_LEDS]. -/
theorem led_countdown_amended (s : ShakeState) (a : ℚ × ℚ × ℚ)
    (hcond : ACCEL_SHAKE_THRESH ≤ |s.prev_X - a.1| ∨
      ACCEL_SHAKE_THRESH ≤ |s.prev_Y - a.2.1| ∨
      ACCEL_SHAKE_THRESH ≤ |s.prev_Z - a.2.2|)
    (hc : s.shake_counter ≤ 15) :
    (shakeStep a s).1.prev_num_leds = NUM_LEDS - ⌈(s.shake_counter : ℚ) / 3⌉ ∧
    0 ≤ NUM_LEDS - ⌈(s.shake_counter : ℚ) / 3⌉ ∧
    NUM_LEDS - ⌈(s.shake_counter : ℚ) / 3⌉ ≤ NUM_LEDS ∧
    ((shakeStep a s).2.led_shown = none ∨
      (shakeStep a s).2.led_shown =
        some (NUM_LEDS - ⌈(s.shake_counter : ℚ) / 3⌉)) := by
  have hle := new_num_leds_eq s.shake_counter hc
  have hcQ : (s.shake_counter : ℚ) ≤ 15 := by exact_mod_cast hc
  have hub : ⌈(s.shake_counter : ℚ) / 3⌉ ≤ 5 := by
    rw [show (5 : ℤ) = ((5 : ℤ) : ℤ) from rfl, Int.ceil_le]
    push_cast
    linarith
  have hlb : (0 : ℤ) ≤ ⌈(s.shake_counter : ℚ) / 3⌉ := Int.ceil_nonneg (by positivity)
  have hpl : (shakeStep a s).1.prev_num_leds = new_num_leds s.shake_counter := by
    simp only [shakeStep]
    rw [if_pos hcond]
    split_ifs <;> rfl
  have hled : (shakeStep a s).2.led_shown =
      (if new_num_leds s.shake_counter ≠ s.prev_num_leds then
        some (new_num_leds s.shake_counter) else none) := by
    simp only [shakeStep]
    rw [if_pos hcond]
    split_ifs <;> rfl
  refine ⟨by rw [hpl, hle], ?_, ?_, ?_⟩
  · have h5 : NUM_LEDS = 5 := rfl
    omega
  · have h5 : NUM_LEDS = 5 := rfl
    omega
  · rw [hled]
    by_cases hne : new_num_leds s.shake_counter ≠ s.prev_num_leds
    · right
      rw [if_pos hne, hle]
    · left
      rw [if_neg hne]

/-- Witness for the amended C9 at counter 7 and sample (20, 0, 0). -/
theorem led_countdown_amended_witness :
    (shakeStep (20, 0, 0) (⟨0, 0, 0, 7, 0, 5⟩ : ShakeState)).1.prev_num_leds =
      NUM_LEDS - ⌈((7 : ℕ) : ℚ) / 3⌉ :=
  (led_countdown_amended ⟨0, 0, 0, 7, 0, 5⟩ (20, 0, 0)
    (Or.inl (by norm_num [ACCEL_SHAKE_THRESH])) (by norm_num)).1

/-- The set of bitmap indices written by the drawing loop of
`Draw.draw_and_move_cursor` (src/draw.py lines 75-82, identical in
src/code.py lines 311-318): for each 0 ≤ x, y < cursor size, the pixel
`(min(cur_pos[0]+x, W-1), min(cur_pos[1]+y, H-1))` is assigned. -/
def drawWrites (pos : ℤ × ℤ) (size : ℕ) (W H : ℤ) : List (ℤ × ℤ) :=
  ((List.range size).map (fun (x : ℕ) =>
    (List.range size).map (fun (y : ℕ) =>
      (min (pos.1 + (x : ℤ)) (W - 1), min (pos.2 + (y : ℤ)) (H - 1))))).flatten

/-- Claim C10: for every cursor position with non-negative coordinates and
every cursor size, the drawing step writes only bitmap indices inside
[0, W-1] x [0, H-1] (each coordinate is clamped with min against the
display bound), so no out-of-bounds bitmap write occurs. -/
theorem draw_writes_in_bounds (pos : ℤ × ℤ) (size : ℕ) (W H : ℤ)
    (hx : 0 ≤ pos.1) (hy : 0 ≤ pos.2) (hW : 1 ≤ W) (hH : 1 ≤ H) :
    ∀ p ∈ drawWrites pos size W H, (0 ≤ p.1 ∧ p.1 < W) ∧ (0 ≤ p.2 ∧ p.2 < H) := by
  intro p hp
  simp only [drawWrites] at hp
  rw [List.mem_flatten] at hp
  obtain ⟨row, hrow, hpr⟩ := hp
  rw [List.mem_map] at hrow
  obtain ⟨x, hxr, rfl⟩ := hrow
  rw [List.mem_map] at hpr
  obtain ⟨y, hyr, rfl⟩ := hpr
  constructor
  · constructor
    · exact le_min (by omega) (by omega)
    · exact lt_of_le_of_lt (min_le_right _ _) (by omega)
  · constructor
    · exact le_min (by omega) (by omega)
    · exact lt_of_le_of_lt (min_le_right _ _) (by omega)

/-- Witness for C10: the write (1, 1) of a 2x2 cursor at (0,0) on a 3x3
display is in bounds. -/
theorem draw_writes_in_bounds_witness :
    ((1 : ℤ), (1 : ℤ)) ∈ drawWrites (0, 0) 2 3 3 ∧
      ((0 : ℤ) ≤ (1 : ℤ) ∧ (1 : ℤ) < 3) ∧ ((0 : ℤ) ≤ (1 : ℤ) ∧ (1 : ℤ) < 3) :=
  ⟨by decide,
   draw_writes_in_bounds (0, 0) 2 3 3 (by decide) (by decide) (by decide)
     (by decide) (1, 1) (by decide)⟩
